import Mathlib

/-
Verification of the Mutagen GUI backend's session orchestrator
(src/backend/main.py), as a shallow embedding in Lean 4.

Python strings are modelled as `List Char`; the free functions below mirror
the Python string operations used by the source (`str.strip`, `str.startswith`,
`in` substring tests, `str.split(":", 1)[1]`, `str.lower`, `str.replace` with
single-character arguments, and `str.split('\n')`).  Stateful code is modelled
by explicit state passing; subprocess spawns are modelled by returning the
argument vectors that would be handed to the engine binary; fallible code
returns `Except`.
-/

/-- `Char.isWhitespace`, the character class stripped by `str.strip`. -/
def isWs (c : Char) : Bool := c.isWhitespace

/-- Left part of Python `str.strip`. -/
def trimLeft (l : List Char) : List Char := l.dropWhile isWs

/-- Right part of Python `str.strip`. -/
def trimRight (l : List Char) : List Char := (l.reverse.dropWhile isWs).reverse

/-- Python `str.strip()`: drop leading and trailing whitespace. -/
def trimChars (l : List Char) : List Char := trimRight (trimLeft l)

/-- Python `needle in hay` substring test. -/
def containsSub : List Char → List Char → Bool
  | [], needle => needle.isPrefixOf ([] : List Char)
  | c :: t, needle => needle.isPrefixOf (c :: t) || containsSub t needle

/-- Number of (possibly overlapping) start positions at which `needle`
occurs in `hay`. -/
def countSub : List Char → List Char → Nat
  | [], needle => if needle.isPrefixOf ([] : List Char) then 1 else 0
  | c :: t, needle => (if needle.isPrefixOf (c :: t) then 1 else 0) + countSub t needle

/-- Python `line.split(":", 1)[1]`: everything after the first colon.
The source only evaluates this on lines known to contain a colon. -/
def afterColon (l : List Char) : List Char := (l.dropWhile (fun c => c ≠ ':')).drop 1

/-- Python `output.split('\n')`. -/
def splitLines : List Char → List (List Char)
  | [] => [[]]
  | c :: t =>
    if c = '\n' then [] :: splitLines t
    else
      match splitLines t with
      | [] => [[c]]
      | l :: ls => (c :: l) :: ls

/-- Python `str.lower()` (character-wise, as used on ASCII messages). -/
def lowerStr (l : List Char) : List Char := l.map Char.toLower

/-- The decimal digit characters (arguments are always below 10 here). -/
def digitOf (n : Nat) : Char :=
  if n = 0 then '0' else if n = 1 then '1' else if n = 2 then '2' else if n = 3 then '3'
  else if n = 4 then '4' else if n = 5 then '5' else if n = 6 then '6' else if n = 7 then '7'
  else if n = 8 then '8' else '9'

/-- Fuel-driven decimal rendering helper (structural recursion so that the
kernel can evaluate it). -/
def natCharsAux : Nat → Nat → List Char
  | 0, _ => []
  | fuel + 1, n =>
    if n < 10 then [digitOf n]
    else natCharsAux fuel (n / 10) ++ [digitOf (n % 10)]

/-- Python `str(n)` for a non-negative integer: decimal digits. -/
def natChars (n : Nat) : List Char := natCharsAux (n + 1) n

/-- Python `str.replace(a, b)` for single-character `a`, `b`. -/
def replaceChar (l : List Char) (a b : Char) : List Char :=
  l.map fun c => if c = a then b else c

/-- `MutagenManager.sanitize_name`: replace spaces and underscores with
hyphens. -/
def sanitize_name (name : List Char) : List Char :=
  replaceChar (replaceChar name ' ' '-') '_' '-'

/- ------------------------------------------------------------------ -/
/- Session list parser (`MutagenManager._parse_sessions`).             -/
/- ------------------------------------------------------------------ -/

/-- The two endpoints a `Alpha:` / `Beta:` marker can select. -/
inductive EndpointId
  | alpha
  | beta
deriving DecidableEq, Repr

/-- One endpoint of a parsed session record; `none` models a key that was
never written into the Python dict. -/
structure Endpoint where
  url : Option (List Char) := none
  connected : Option Bool := none
deriving DecidableEq, Repr

/-- One parsed session record (the dict built per `Name:` stanza). -/
structure SessionRec where
  name : List Char
  identifier : Option (List Char) := none
  status : Option (List Char) := none
  alpha : Endpoint := {}
  beta : Endpoint := {}
deriving DecidableEq, Repr

/-- Scan state of `_parse_sessions`: flushed records, the dict under
construction, and the `current_endpoint` local (which starts unset and is
never reset once assigned). -/
structure ParseState where
  sessions : List SessionRec := []
  current : Option SessionRec := none
  cursor : Option EndpointId := none
deriving DecidableEq, Repr

/-- Update one endpoint of a record, selected by the cursor. -/
def updEp (s : SessionRec) (ep : EndpointId) (f : Endpoint → Endpoint) : SessionRec :=
  match ep with
  | .alpha => { s with alpha := f s.alpha }
  | .beta => { s with beta := f s.beta }

def setUrl (e : Endpoint) (v : List Char) : Endpoint := { e with url := some v }

def setConn (e : Endpoint) (b : Bool) : Endpoint := { e with connected := some b }

/-- Append the in-progress record, mirroring the `if current_session:`
flushes. -/
def flushCurrent (st : ParseState) : List SessionRec :=
  st.sessions ++ (match st.current with | some s => [s] | none => [])

/-- One iteration of the `for line in output.split('\n')` loop of
`_parse_sessions`, branch for branch. -/
def processLine (st : ParseState) (raw : List Char) : ParseState :=
  let line := trimChars raw
  if "Name:".data.isPrefixOf line then
    { sessions := flushCurrent st,
      current := some { name := trimChars (afterColon line) },
      cursor := st.cursor }
  else
    match st.current with
    | none => st
    | some s =>
      if "Identifier:".data.isPrefixOf line then
        { st with current := some { s with identifier := some (trimChars (afterColon line)) } }
      else if "Status:".data.isPrefixOf line then
        { st with current := some { s with status := some (trimChars (afterColon line)) } }
      else if "Alpha:".data.isPrefixOf line then
        { st with cursor := some .alpha }
      else if "Beta:".data.isPrefixOf line then
        { st with cursor := some .beta }
      else if containsSub line "URL:".data then
        match st.cursor with
        | some ep =>
          { st with current := some (updEp s ep (fun e => setUrl e (trimChars (afterColon line)))) }
        | none => st
      else if containsSub line "Connected:".data then
        match st.cursor with
        | some ep =>
          { st with current := some (updEp s ep (fun e => setConn e (containsSub line "Yes".data))) }
        | none => st
      else st

/-- `_parse_sessions` applied to an already-split list of lines. -/
def parseLinesList (ls : List (List Char)) : List SessionRec :=
  flushCurrent (ls.foldl processLine {})

/-- `MutagenManager._parse_sessions`. -/
def parseSessions (output : List Char) : List SessionRec :=
  parseLinesList (splitLines output)

/-- The name a line contributes: `some` exactly for (stripped) lines starting
with `Name:`. -/
def nameOfLine (raw : List Char) : Option (List Char) :=
  let line := trimChars raw
  if "Name:".data.isPrefixOf line then some (trimChars (afterColon line)) else none

/-- The stanza line that selects an endpoint cursor. -/
def markerLine : EndpointId → List Char
  | .alpha => "Alpha:".data
  | .beta => "Beta:".data

/- ------------------------------------------------------------------ -/
/- Connection descriptor and credential/config synthesis.              -/
/- ------------------------------------------------------------------ -/

/-- The `ConnectionConfig` pydantic model (fields used by the orchestrator;
`tags` is only persisted to the external connection store and plays no role
in session creation). -/
structure ConnectionConfig where
  name : List Char
  host : List Char
  port : Nat := 22
  username : List Char
  remote_path : List Char
  local_path : List Char
  ssh_key_path : Option (List Char) := none
  sync_mode : List Char := "two-way-safe".data
  initial_sync_direction : Option (List Char) := none
deriving Repr

/-- Ambient system facts consulted by `create_session`: whether the key file
exists, its permission bits (`st_mode & 0o777`), whether the `chmod` call
raises, the current text of `~/.ssh/config` (an absent file reads as the
empty text), and whether the initial rsync invocation fails. -/
structure SysEnv where
  keyExists : Bool
  keyPerms : Nat
  chmodFails : Bool
  sshConfigText : List Char
  rsyncFails : Bool
deriving Repr

/-- Failures that abort `create_session` before the engine is invoked. -/
inductive CreateErr
  | rsyncFailed
  | chmodFailed
deriving DecidableEq, Repr

/-- The marker comment keying an SSH config block to a connection name. -/
def entry_marker (name : List Char) : List Char := "# Mutagen GUI: ".data ++ name

/-- The per-connection host alias, built from the sanitized name. -/
def host_alias (cfg : ConnectionConfig) : List Char :=
  "mutagen-".data ++ sanitize_name cfg.name

/-- The lines of the SSH config block following the marker comment. -/
def entryTail (cfg : ConnectionConfig) (kp : List Char) : List Char :=
  "\nHost ".data ++ host_alias cfg ++
  "\n  HostName ".data ++ cfg.host ++
  "\n  User ".data ++ cfg.username ++
  "\n  Port ".data ++ natChars cfg.port ++
  "\n  IdentityFile ".data ++ kp ++
  "\n  StrictHostKeyChecking no\n  UserKnownHostsFile /dev/null\n\n".data

/-- The block appended to the SSH client configuration (`new_entry` in
`create_session`): a newline, the marker comment, then the host-alias
lines; `kp` is the key path from the descriptor. -/
def ssh_entry (cfg : ConnectionConfig) (kp : List Char) : List Char :=
  "\n".data ++ entry_marker cfg.name ++ entryTail cfg kp

/-- The idempotent append step of `create_session`: leave the config text
alone when the marker comment is already present, otherwise append the
block. -/
def appendSshConfig (existing : List Char) (cfg : ConnectionConfig) (kp : List Char) :
    List Char :=
  if containsSub existing (entry_marker cfg.name) then existing
  else existing ++ ssh_entry cfg kp

/-- The fixed leading arguments of the engine's creation command. -/
def baseArgs (cfg : ConnectionConfig) : List (List Char) :=
  ["sync".data, "create".data,
   "--name=".data ++ sanitize_name cfg.name,
   "--mode=".data ++ cfg.sync_mode,
   "--default-file-mode=0644".data,
   "--default-directory-mode=0755".data]

/-- Remote URL when no SSH config alias is in play: `user@host:path`, or the
compact `user@host:port:path` when the port is set and not 22 (Python
`if config.port and config.port != 22`, where a zero port is falsy). -/
def portUrl (cfg : ConnectionConfig) : List Char :=
  if cfg.port ≠ 0 ∧ cfg.port ≠ 22 then
    cfg.username ++ "@".data ++ cfg.host ++ ":".data ++ natChars cfg.port ++
      ":".data ++ cfg.remote_path
  else
    cfg.username ++ "@".data ++ cfg.host ++ ":".data ++ cfg.remote_path

/-- Remote URL through the synthesized host alias. -/
def aliasUrl (cfg : ConnectionConfig) : List Char :=
  cfg.username ++ "@".data ++ host_alias cfg ++ ":".data ++ cfg.remote_path

/-- The remote endpoint URL `create_session` ends up using: the alias form
exactly when a key path is configured and the key file exists, the plain
form otherwise. -/
def remote_url_of (cfg : ConnectionConfig) (env : SysEnv) : List Char :=
  match cfg.ssh_key_path with
  | some _ => if env.keyExists then aliasUrl cfg else portUrl cfg
  | none => portUrl cfg

/-- The full argument vector handed to `mutagen sync create`: for
`one-way-replica` the remote URL precedes the local path, otherwise the
local path comes first. -/
def sessionArgs (cfg : ConnectionConfig) (env : SysEnv) : List (List Char) :=
  baseArgs cfg ++
    (if cfg.sync_mode == "one-way-replica".data then
      [remote_url_of cfg env, cfg.local_path]
    else
      [cfg.local_path, remote_url_of cfg env])

/-- `MutagenManager.create_session`, step for step: optional initial rsync
(whose failure aborts), the key-permission fix (whose failure aborts, since
the `chmod` call is not guarded by any exception handler), the idempotent
SSH config append, and finally the engine invocation.  The result carries
the creation argument vector and the resulting SSH config text.  The
ssh-agent registration is wrapped in a bare `except` in the source and can
never fail the operation, so it has no observable effect here. -/
def create_session (cfg : ConnectionConfig) (env : SysEnv) :
    Except CreateErr (List (List Char) × List Char) :=
  let syncRequested :=
    match cfg.initial_sync_direction with
    | some d => !(d == "skip".data)
    | none => false
  if syncRequested && env.rsyncFails then
    .error .rsyncFailed
  else
    match cfg.ssh_key_path with
    | some kp =>
      if env.keyExists then
        if env.keyPerms ≠ 0o600 then
          if env.chmodFails then
            .error .chmodFailed
          else
            .ok (sessionArgs cfg env, appendSshConfig env.sshConfigText cfg kp)
        else
          .ok (sessionArgs cfg env, appendSshConfig env.sshConfigText cfg kp)
      else
        .ok (sessionArgs cfg env, env.sshConfigText)
    | none =>
      .ok (sessionArgs cfg env, env.sshConfigText)

/- ------------------------------------------------------------------ -/
/- Session actions (`MutagenManager.perform_action`).                  -/
/- ------------------------------------------------------------------ -/

/-- The `valid_actions` list of `perform_action`. -/
def valid_actions : List (List Char) :=
  ["resume".data, "pause".data, "flush".data, "terminate".data, "reset".data]

/-- The validation failure of `perform_action` (`ValueError` in the
source). -/
inductive ActionErr
  | invalidAction
deriving DecidableEq, Repr

/-- `MutagenManager.perform_action`: validate the action kind, then invoke
the engine.  The `ok` payload lists the argument vectors of the processes
spawned; a validation failure spawns none. -/
def perform_action (session_name action : List Char) :
    Except ActionErr (List (List (List Char))) :=
  if valid_actions.contains action then
    .ok [["sync".data, action, session_name]]
  else
    .error .invalidAction

/- ------------------------------------------------------------------ -/
/- Conflict resolution (`resolve_conflicts` route).                    -/
/- ------------------------------------------------------------------ -/

/-- Failures of the resolve route: the two validation failures from the
spec's taxonomy, plus `keyErr` modelling the uncaught Python `KeyError`
raised when a found session record lacks an endpoint URL. -/
inductive ResolveErr
  | invalidWinner
  | sessionNotFound
  | keyErr
deriving DecidableEq, Repr

/-- Outcome of the resolve route: the engine argument vectors spawned, in
order, and the final result. -/
structure ResolveResult where
  spawned : List (List (List Char))
  outcome : Except ResolveErr Unit
deriving Repr

/-- `mutagen sync terminate <name>`. -/
def terminateCmd (name : List Char) : List (List Char) :=
  ["sync".data, "terminate".data, name]

/-- The forced one-way recreation command issued by the resolve route. -/
def resolveCreateCmd (name src dst : List Char) : List (List Char) :=
  ["sync".data, "create".data,
   "--name=".data ++ name,
   "--mode=one-way-replica".data,
   "--default-file-mode=0644".data,
   "--default-directory-mode=0755".data,
   src, dst]

/-- The `resolve_conflicts` route: validate the winner, list sessions (one
engine spawn, whose parsed output is the `sessions` argument), find the
session by name, terminate it, then recreate it in `one-way-replica` mode
with the winner's URL as source.  The endpoint URLs are read only after the
terminate, so a record without URLs terminates and then raises. -/
def resolve_conflicts (sessions : List SessionRec) (session_name winner : List Char) :
    ResolveResult :=
  if winner == "alpha".data || winner == "beta".data then
    match sessions.find? (fun s => s.name == session_name) with
    | none =>
      { spawned := [["sync".data, "list".data]], outcome := .error .sessionNotFound }
    | some s =>
      match s.alpha.url, s.beta.url with
      | some au, some bu =>
        { spawned :=
            [["sync".data, "list".data], terminateCmd session_name,
             if winner == "alpha".data then resolveCreateCmd session_name au bu
             else resolveCreateCmd session_name bu au],
          outcome := .ok () }
      | _, _ =>
        { spawned := [["sync".data, "list".data], terminateCmd session_name],
          outcome := .error .keyErr }
  else
    { spawned := [], outcome := .error .invalidWinner }

/- ------------------------------------------------------------------ -/
/- Listing endpoint (`list_sessions` route) and its leniency policy.   -/
/- ------------------------------------------------------------------ -/

/-- Failures of `run_command`: non-zero exit wrapped as
`RuntimeError("Command failed: ...")`, a timeout wrapped as
`RuntimeError("Command timed out after N seconds")`, and the missing-binary
`HTTPException` (which is not a `RuntimeError`). -/
inductive RunErr
  | commandFailed (msg : List Char)
  | timedOut (secs : Nat)
  | notInstalled
deriving DecidableEq, Repr

/-- `str(e)` for the two `RuntimeError`s raised by `run_command`.  The
missing-binary case is an `HTTPException` and its detail text never reaches
the handler that inspects `str(e)`. -/
def runErrMsg : RunErr → List Char
  | .commandFailed m => "Command failed: ".data ++ m
  | .timedOut t => "Command timed out after ".data ++ natChars t ++ " seconds".data
  | .notInstalled => "Mutagen is not installed".data

/-- `MutagenManager.daemon_status`: run `daemon list`; report `running` iff
the output contains that token (case-insensitively); any failure at all is
reported as `stopped`. -/
def daemon_status (o : Except RunErr (List Char)) : List Char :=
  match o with
  | .ok out => if containsSub (lowerStr out) "running".data then "running".data
               else "stopped".data
  | .error _ => "stopped".data

/-- The `except RuntimeError` handler of the `list_sessions` route: a
`RuntimeError` whose text contains `timed out` (lower-cased) degrades to an
empty list; other `RuntimeError`s re-raise; the missing-binary failure is
not a `RuntimeError` and always propagates. -/
def rescueTimeout (e : RunErr) : Except RunErr (List SessionRec) :=
  match e with
  | .notInstalled => .error e
  | _ =>
    if containsSub (lowerStr (runErrMsg e)) "timed out".data then .ok []
    else .error e

/-- The `/api/sessions` route: check daemon status (`statusO` is the
`daemon list` outcome), start the daemon when the reported status differs
from the literal `Running` (`startO` is the `daemon start` outcome), then
list and parse (`listO` is the `sync list` outcome). -/
def list_sessions_api (statusO startO listO : Except RunErr (List Char)) :
    Except RunErr (List SessionRec) :=
  let ds := daemon_status statusO
  let afterStart : Except RunErr Unit :=
    if ds == "Running".data then .ok ()
    else
      match startO with
      | .ok _ => .ok ()
      | .error e => .error e
  match afterStart with
  | .error e => rescueTimeout e
  | .ok _ =>
    match listO with
    | .error e => rescueTimeout e
    | .ok out => .ok (parseSessions out)

/- ------------------------------------------------------------------ -/
/- Helper lemmas about the string model.                               -/
/- ------------------------------------------------------------------ -/

theorem containsSub_nil_needle (hay : List Char) : containsSub hay [] = true := by
  cases hay <;> simp [containsSub, List.isPrefixOf]

theorem containsSub_of_isPrefixOf {hay needle : List Char}
    (h : needle.isPrefixOf hay = true) : containsSub hay needle = true := by
  cases hay with
  | nil => simpa [containsSub] using h
  | cons c t => simp [containsSub, h]

theorem isPrefixOf_append_of {m a : List Char} (b : List Char)
    (h : m.isPrefixOf a = true) : m.isPrefixOf (a ++ b) = true := by
  rw [List.isPrefixOf_iff_prefix] at h ⊢
  exact h.trans (List.prefix_append a b)

theorem containsSub_append_left {a m : List Char} (b : List Char)
    (h : containsSub a m = true) : containsSub (a ++ b) m = true := by
  induction a with
  | nil =>
    have : m = [] := by
      simpa [containsSub, List.isPrefixOf_iff_prefix] using h
    subst this
    exact containsSub_nil_needle b
  | cons c t ih =>
    simp only [containsSub, Bool.or_eq_true] at h
    rcases h with h | h
    · exact containsSub_of_isPrefixOf (isPrefixOf_append_of b h)
    · simp [containsSub, ih h]

theorem containsSub_append_right {b m : List Char} (a : List Char)
    (h : containsSub b m = true) : containsSub (a ++ b) m = true := by
  induction a with
  | nil => simpa using h
  | cons c t ih => simp [containsSub, ih]

theorem containsSub_head_notMem {hay : List Char} {c : Char} {m' : List Char}
    (hc : c ∉ hay) : containsSub hay (c :: m') = false := by
  induction hay with
  | nil => simp [containsSub, List.isPrefixOf]
  | cons x t ih =>
    have hcx : c ≠ x := fun h => hc (h ▸ List.mem_cons_self x t)
    have hct : c ∉ t := fun h => hc (List.mem_cons_of_mem x h)
    simp [containsSub, List.isPrefixOf, ih hct, beq_eq_false_iff_ne.mpr hcx]

theorem countSub_le_count (hay : List Char) (c : Char) (m' : List Char) :
    countSub hay (c :: m') ≤ hay.count c := by
  induction hay with
  | nil => simp [countSub, List.isPrefixOf]
  | cons x t ih =>
    rw [countSub, List.count_cons]
    by_cases h : (c :: m').isPrefixOf (x :: t) = true
    · have hcx : c = x := by
        have := h
        simp only [List.isPrefixOf, Bool.and_eq_true, beq_iff_eq] at this
        exact this.1
      subst hcx
      simp only [h, if_pos rfl, beq_self_eq_true, if_pos]
      omega
    · rw [if_neg h]
      have : countSub t (c :: m') ≤ t.count c := ih
      omega

theorem countSub_ge_one (a m b : List Char) : 1 ≤ countSub (a ++ (m ++ b)) m := by
  induction a with
  | nil =>
    cases h : m ++ b with
    | nil =>
      have hm : m = [] := by
        rcases List.append_eq_nil.mp h with ⟨h1, _⟩
        exact h1
      subst hm
      simp [countSub, List.isPrefixOf]
    | cons x t =>
      have hp : m.isPrefixOf (m ++ b) = true :=
        List.isPrefixOf_iff_prefix.mpr (List.prefix_append m b)
      rw [List.nil_append, h] at *
      rw [countSub]
      rw [← h] at *
      simp [hp]
  | cons x t ih =>
    rw [List.cons_append, countSub]
    omega

theorem trimRight_length_le (l : List Char) : (trimRight l).length ≤ l.length := by
  unfold trimRight
  calc ((l.reverse.dropWhile isWs).reverse).length
      = (l.reverse.dropWhile isWs).length := List.length_reverse _
    _ ≤ l.reverse.length := (List.dropWhile_sublist _).length_le
    _ = l.length := List.length_reverse _

theorem trim_self_right {v : List Char} (h : trimChars v = v) : trimRight v = v := by
  have hsuf : trimLeft v <:+ v := List.dropWhile_suffix _
  have h1 : (trimRight (trimLeft v)).length ≤ (trimLeft v).length :=
    trimRight_length_le _
  have h2 : (trimLeft v).length ≤ v.length := hsuf.sublist.length_le
  have h3 : v.length = (trimRight (trimLeft v)).length := by
    conv_lhs => rw [← h, trimChars]
  have hlen : (trimLeft v).length = v.length := by omega
  have hL : trimLeft v = v := hsuf.eq_of_length hlen
  rw [trimChars, hL] at h
  exact h

theorem trimRight_append {v : List Char} (a : List Char) (h : trimRight v ≠ []) :
    trimRight (a ++ v) = a ++ trimRight v := by
  have hne : (v.reverse.dropWhile isWs).isEmpty = false := by
    rw [Bool.eq_false_iff]
    intro hh
    exact h (by simp [trimRight, List.isEmpty_iff.mp hh])
  unfold trimRight
  rw [List.reverse_append, List.dropWhile_append, hne]
  simp [trimRight]

theorem updEp_name (s : SessionRec) (ep : EndpointId) (f : Endpoint → Endpoint) :
    (updEp s ep f).name = s.name := by
  cases ep <;> rfl

/-- Per-line effect on the flushed name sequence: a `Name:` line contributes
its value, every other line contributes nothing. -/
theorem flushNames_processLine (st : ParseState) (l : List Char) :
    (flushCurrent (processLine st l)).map SessionRec.name
      = (flushCurrent st).map SessionRec.name ++ (nameOfLine l).toList := by
  unfold processLine nameOfLine
  by_cases h1 : "Name:".data.isPrefixOf (trimChars l) = true
  · simp [h1, flushCurrent]
  · rw [Bool.not_eq_true] at h1
    simp only [h1, Bool.false_eq_true, if_false, Option.toList_none, List.append_nil]
    cases hc : st.current with
    | none => rfl
    | some s =>
      simp only []
      split_ifs with h2 h3 h4 h5 h6 h7
      · simp [flushCurrent, hc]
      · simp [flushCurrent, hc]
      · simp [flushCurrent, hc]
      · simp [flushCurrent, hc]
      · cases hcu : st.cursor with
        | none => rfl
        | some ep => simp [flushCurrent, hc, updEp_name]
      · cases hcu : st.cursor with
        | none => rfl
        | some ep => simp [flushCurrent, hc, updEp_name]
      · rfl

/-- Folding the scanner over lines appends exactly the `Name:` values. -/
theorem flushNames_foldl (ls : List (List Char)) :
    ∀ st : ParseState,
      (flushCurrent (ls.foldl processLine st)).map SessionRec.name
        = (flushCurrent st).map SessionRec.name ++ ls.filterMap nameOfLine := by
  induction ls with
  | nil => intro st; simp
  | cons l t ih =>
    intro st
    rw [List.foldl_cons, ih (processLine st l), flushNames_processLine,
      List.filterMap_cons]
    cases h : nameOfLine l <;> simp [h]

/-- `sanitize_name` as a single character map. -/
theorem sanitize_eq_map (y : List Char) :
    sanitize_name y
      = y.map (fun c => if c = ' ' then '-' else if c = '_' then '-' else c) := by
  unfold sanitize_name replaceChar
  rw [List.map_map]
  congr 1
  funext c
  by_cases h1 : c = ' '
  · subst h1; rfl
  · by_cases h2 : c = '_'
    · subst h2; rfl
    · simp [Function.comp, h1, h2]

/- ------------------------------------------------------------------ -/
/- Claim C1.                                                           -/
/- ------------------------------------------------------------------ -/

/-- C1, counterexample: in the input
`Name: a\nAlpha:\nName: b\nURL: /x` the `URL:` line of the second stanza
appears before any `Alpha:`/`Beta:` marker of that stanza, yet the parser
attaches it (to the alpha endpoint selected in the first stanza) instead of
silently dropping it as the claim states: the second record's alpha URL is
`some "/x"`, not `none`. -/
theorem C1_claim_cex :
    (parseSessions "Name: a\nAlpha:\nName: b\nURL: /x".data).map
        (fun s => s.alpha.url)
      = [none, some "/x".data]
    ∧ some "/x".data ≠ (none : Option (List Char)) := by
  exact ⟨rfl, by decide⟩

/-- C1 (amended): the parser produces exactly one record per (stripped) line
starting with `Name:`, in input order; a `URL:`/`Connected:` line is
silently dropped (the whole scan state is unchanged) only when no
`Alpha:`/`Beta:` marker has occurred anywhere earlier in the input (the
endpoint cursor is still unset); and the endpoint cursor changes only at
`Alpha:`/`Beta:` marker lines — in particular it is carried over, not
reset, when a `Name:` line opens a new stanza, so the nearest preceding
marker may lie in an earlier stanza. -/
theorem C1_amended_parse :
    (∀ output : List Char,
        (parseSessions output).map SessionRec.name
          = (splitLines output).filterMap nameOfLine)
  ∧ (∀ (st : ParseState) (l : List Char),
        st.cursor = none →
        "Name:".data.isPrefixOf (trimChars l) = false →
        "Identifier:".data.isPrefixOf (trimChars l) = false →
        "Status:".data.isPrefixOf (trimChars l) = false →
        "Alpha:".data.isPrefixOf (trimChars l) = false →
        "Beta:".data.isPrefixOf (trimChars l) = false →
        processLine st l = st)
  ∧ (∀ (st : ParseState) (l : List Char),
        "Alpha:".data.isPrefixOf (trimChars l) = false →
        "Beta:".data.isPrefixOf (trimChars l) = false →
        (processLine st l).cursor = st.cursor) := by
  refine ⟨?_, ?_, ?_⟩
  · intro output
    have h := flushNames_foldl (splitLines output) {}
    simpa [parseSessions, parseLinesList, flushCurrent] using h
  · intro st l hcu h1 h2 h3 h4 h5
    unfold processLine
    simp only [h1, Bool.false_eq_true, if_false]
    cases hc : st.current with
    | none => rfl
    | some s =>
      simp only [h2, h3, h4, h5, Bool.false_eq_true, if_false]
      split_ifs with h6 h7
      · rw [hcu]
      · rw [hcu]
      · rfl
  · intro st l h4 h5
    unfold processLine
    by_cases h1 : "Name:".data.isPrefixOf (trimChars l) = true
    · simp only [h1, if_true]
    · rw [Bool.not_eq_true] at h1
      simp only [h1, Bool.false_eq_true, if_false]
      cases hc : st.current with
      | none => rfl
      | some s =>
        simp only [h4, h5, Bool.false_eq_true, if_false]
        split_ifs with h6 h7 h8 h9
        · rfl
        · rfl
        · cases hcu : st.cursor <;> simp [hcu]
        · cases hcu : st.cursor <;> simp [hcu]
        · rfl

/-- C1 amended, witness: with the cursor still unset, a bare `URL:` line
leaves the initial scan state untouched. -/
theorem C1_amended_parse_witness :
    processLine {} "URL: /dropped".data = {} :=
  C1_amended_parse.2.1 {} "URL: /dropped".data rfl (by decide) (by decide)
    (by decide) (by decide) (by decide)

/- ------------------------------------------------------------------ -/
/- Claim C4.                                                           -/
/- ------------------------------------------------------------------ -/

/-- C4, counterexample: `sanitize_name` replaces only spaces and
underscores, so a tab — a whitespace character — survives sanitization
unchanged, refuting "the output contains no whitespace characters". -/
theorem C4_whitespace_cex :
    sanitize_name "a\tb".data = "a\tb".data
    ∧ '\t' ∈ sanitize_name "a\tb".data
    ∧ ('\t').isWhitespace = true := by
  exact ⟨rfl, by decide, by decide⟩

/-- C4 (amended): sanitization is idempotent, and its output contains no
space character and no underscore character (other whitespace, such as tab
or newline, is not replaced). -/
theorem C4_amended_sanitize (x : List Char) :
    sanitize_name (sanitize_name x) = sanitize_name x
    ∧ ' ' ∉ sanitize_name x
    ∧ '_' ∉ sanitize_name x := by
  refine ⟨?_, ?_, ?_⟩
  · rw [sanitize_eq_map, sanitize_eq_map, List.map_map]
    congr 1
    funext c
    by_cases h1 : c = ' '
    · subst h1; rfl
    · by_cases h2 : c = '_'
      · subst h2; rfl
      · simp [Function.comp, h1, h2]
  · rw [sanitize_eq_map]
    intro hmem
    rcases List.mem_map.mp hmem with ⟨c, _, hc⟩
    split_ifs at hc with h1 h2
    · exact absurd hc (by decide)
    · exact absurd hc (by decide)
    · exact h1 hc
  · rw [sanitize_eq_map]
    intro hmem
    rcases List.mem_map.mp hmem with ⟨c, _, hc⟩
    split_ifs at hc with h1 h2
    · exact absurd hc (by decide)
    · exact absurd hc (by decide)
    · exact h2 hc

/- ------------------------------------------------------------------ -/
/- Claim C6.                                                           -/
/- ------------------------------------------------------------------ -/

/-- C6: for every session name and every action kind outside
{resume, pause, flush, terminate, reset}, `perform_action` fails with the
validation error and never reaches an engine invocation (no spawned
command list is produced). -/
theorem C6_invalid_action (session_name action : List Char)
    (h : valid_actions.contains action = false) :
    perform_action session_name action = .error .invalidAction
    ∧ ∀ cmds, perform_action session_name action ≠ .ok cmds := by
  have he : perform_action session_name action = .error .invalidAction := by
    unfold perform_action
    rw [h]
    rfl
  refine ⟨he, fun cmds hok => ?_⟩
  rw [he] at hok
  exact Except.noConfusion hok

/-- C6, witness: the spec's example `action("x", "fly")`. -/
theorem C6_invalid_action_witness :
    perform_action "x".data "fly".data = .error .invalidAction :=
  (C6_invalid_action "x".data "fly".data (by decide)).1

/- ------------------------------------------------------------------ -/
/- Claim C2.                                                           -/
/- ------------------------------------------------------------------ -/

/-- C2: `resolve_conflicts` rejects a winner outside {alpha, beta} with the
validation error before any engine spawn; with a valid winner and an
unknown session name it fails as not-found after only the listing spawn;
otherwise (session found, both endpoint URLs present) it spawns the
listing, then a terminate for the session, then a `one-way-replica`
creation whose source is the winner's URL and whose destination is the
other endpoint's URL. -/
theorem C2_resolve (sessions : List SessionRec) (session_name winner : List Char) :
    (winner ≠ "alpha".data → winner ≠ "beta".data →
        resolve_conflicts sessions session_name winner
          = { spawned := [], outcome := .error .invalidWinner })
    ∧ ((winner = "alpha".data ∨ winner = "beta".data) →
        sessions.find? (fun s => s.name == session_name) = none →
        resolve_conflicts sessions session_name winner
          = { spawned := [["sync".data, "list".data]],
              outcome := .error .sessionNotFound })
    ∧ (∀ (s : SessionRec) (au bu : List Char),
        sessions.find? (fun s => s.name == session_name) = some s →
        s.alpha.url = some au → s.beta.url = some bu →
        (winner = "alpha".data →
            resolve_conflicts sessions session_name winner
              = { spawned := [["sync".data, "list".data], terminateCmd session_name,
                    resolveCreateCmd session_name au bu],
                  outcome := .ok () })
        ∧ (winner = "beta".data →
            resolve_conflicts sessions session_name winner
              = { spawned := [["sync".data, "list".data], terminateCmd session_name,
                    resolveCreateCmd session_name bu au],
                  outcome := .ok () })) := by
  refine ⟨?_, ?_, ?_⟩
  · intro ha hb
    unfold resolve_conflicts
    rw [show (winner == "alpha".data) = false from beq_eq_false_iff_ne.mpr ha,
      show (winner == "beta".data) = false from beq_eq_false_iff_ne.mpr hb]
    rfl
  · intro hw hf
    have hc : (winner == "alpha".data || winner == "beta".data) = true := by
      rcases hw with hw | hw <;> subst hw <;> decide
    unfold resolve_conflicts
    rw [hc, hf]
    rfl
  · intro s au bu hf hau hbu
    constructor
    · intro hw
      subst hw
      unfold resolve_conflicts
      simp only [hf, hau, hbu]
      rfl
    · intro hw
      subst hw
      unfold resolve_conflicts
      simp only [hf, hau, hbu]
      rfl

/-- The session of the spec's resolve example. -/
def demoSession : SessionRec :=
  { name := "demo".data,
    alpha := { url := some "/local".data },
    beta := { url := some "user@host:/remote".data } }

/-- C2, witness: the spec's example `resolve("demo", "beta")` with alpha URL
`/local` and beta URL `user@host:/remote` terminates `demo` and recreates
it in `one-way-replica` mode with source `user@host:/remote` and
destination `/local`. -/
theorem C2_resolve_witness :
    resolve_conflicts [demoSession] "demo".data "beta".data
      = { spawned := [["sync".data, "list".data], terminateCmd "demo".data,
            resolveCreateCmd "demo".data "user@host:/remote".data "/local".data],
          outcome := .ok () } :=
  ((C2_resolve [demoSession] "demo".data "beta".data).2.2 demoSession
      "/local".data "user@host:/remote".data rfl rfl rfl).2 rfl

/- ------------------------------------------------------------------ -/
/- Claim C3.                                                           -/
/- ------------------------------------------------------------------ -/

/-- A descriptor with an SSH key configured. -/
def keyCfg : ConnectionConfig :=
  { name := "demo".data, host := "h".data, port := 22, username := "u".data,
    remote_path := "/r".data, local_path := "/l".data,
    ssh_key_path := some "/k/id".data, sync_mode := "two-way-safe".data,
    initial_sync_direction := none }

/-- An environment in which the key file exists with permission bits 0644
and the `chmod` call raises (for example, the key file is owned by another
user). -/
def chmodFailEnv : SysEnv :=
  { keyExists := true, keyPerms := 0o644, chmodFails := true,
    sshConfigText := [], rsyncFails := false }

/-- C3: evaluation at the failing input.  The `key_path.chmod(0o600)` call
in `create_session` is not guarded by any exception handler, so when the
permission-normalization step fails the whole creation operation fails and
the engine's creation command is never reached — contradicting the claim
that a permission-fix failure never fails the enclosing operation. -/
theorem C3_chmod_failure_aborts_create :
    create_session keyCfg chmodFailEnv = .error .chmodFailed := rfl

/- ------------------------------------------------------------------ -/
/- Claim C5.                                                           -/
/- ------------------------------------------------------------------ -/

/-- C5: whenever `create_session` reaches the engine invocation, the
argument vector places the remote endpoint URL before the local path
exactly when the sync mode is `one-way-replica`; for every other mode the
local path precedes the remote URL. -/
theorem C5_mode_order (cfg : ConnectionConfig) (env : SysEnv)
    (args : List (List Char)) (txt : List Char)
    (h : create_session cfg env = .ok (args, txt)) :
    (cfg.sync_mode = "one-way-replica".data →
        args = baseArgs cfg ++ [remote_url_of cfg env, cfg.local_path])
    ∧ (cfg.sync_mode ≠ "one-way-replica".data →
        args = baseArgs cfg ++ [cfg.local_path, remote_url_of cfg env]) := by
  have hargs : args = sessionArgs cfg env := by
    simp only [create_session] at h
    repeat' split at h
    any_goals exact Except.noConfusion h
    all_goals
      injection h with h1
      exact (congrArg Prod.fst h1).symm
  constructor
  · intro hm
    rw [hargs, sessionArgs, if_pos (beq_iff_eq.mpr hm)]
  · intro hm
    rw [hargs, sessionArgs, if_neg (fun hh => hm (beq_iff_eq.mp hh))]

/-- A `one-way-replica` descriptor with no SSH key. -/
def replicaCfg : ConnectionConfig :=
  { name := "demo".data, host := "h".data, port := 22, username := "u".data,
    remote_path := "/r".data, local_path := "/l".data,
    ssh_key_path := none, sync_mode := "one-way-replica".data,
    initial_sync_direction := none }

/-- An environment with nothing unusual in it. -/
def plainEnv : SysEnv :=
  { keyExists := false, keyPerms := 0o600, chmodFails := false,
    sshConfigText := [], rsyncFails := false }

/-- C5, witness: a concrete `one-way-replica` creation puts the remote URL
`u@h:/r` before the local path `/l`. -/
theorem C5_mode_order_witness :
    ["sync".data, "create".data, "--name=demo".data, "--mode=one-way-replica".data,
     "--default-file-mode=0644".data, "--default-directory-mode=0755".data,
     "u@h:/r".data, "/l".data]
      = baseArgs replicaCfg ++ [remote_url_of replicaCfg plainEnv, replicaCfg.local_path] :=
  (C5_mode_order replicaCfg plainEnv
    ["sync".data, "create".data, "--name=demo".data, "--mode=one-way-replica".data,
     "--default-file-mode=0644".data, "--default-directory-mode=0755".data,
     "u@h:/r".data, "/l".data] [] rfl).1 rfl

/- ------------------------------------------------------------------ -/
/- Claim C8.                                                           -/
/- ------------------------------------------------------------------ -/

theorem digitOf_ne_hash (d : Nat) : digitOf d ≠ '#' := by
  unfold digitOf
  split_ifs <;> decide

theorem hash_not_mem_natCharsAux (fuel n : Nat) : '#' ∉ natCharsAux fuel n := by
  induction fuel generalizing n with
  | zero => simp [natCharsAux]
  | succ f ih =>
    unfold natCharsAux
    split_ifs with h
    · intro hmem
      simp only [List.mem_singleton] at hmem
      exact digitOf_ne_hash n hmem.symm
    · intro hmem
      rcases List.mem_append.mp hmem with hm | hm
      · exact ih _ hm
      · simp only [List.mem_singleton] at hm
        exact digitOf_ne_hash _ hm.symm

theorem hash_not_mem_natChars (n : Nat) : '#' ∉ natChars n :=
  hash_not_mem_natCharsAux (n + 1) n

theorem hash_not_mem_sanitize {name : List Char} (hn : '#' ∉ name) :
    '#' ∉ sanitize_name name := by
  rw [sanitize_eq_map]
  intro hmem
  rcases List.mem_map.mp hmem with ⟨c, hcmem, hc⟩
  split_ifs at hc with h1 h2
  · exact absurd hc (by decide)
  · exact absurd hc (by decide)
  · exact hn (hc ▸ hcmem)

/-- The marker comment occurs in the appended block. -/
theorem marker_in_entry (cfg : ConnectionConfig) (kp : List Char) :
    containsSub (ssh_entry cfg kp) (entry_marker cfg.name) = true := by
  unfold ssh_entry
  apply containsSub_append_left
  apply containsSub_append_right
  exact containsSub_of_isPrefixOf
    (List.isPrefixOf_iff_prefix.mpr (List.prefix_refl _))

/-- The appended block contains exactly one `#` character when none of the
interpolated descriptor fields contains one. -/
theorem count_hash_entry (cfg : ConnectionConfig) (kp : List Char)
    (hn : '#' ∉ cfg.name) (hh : '#' ∉ cfg.host) (hu : '#' ∉ cfg.username)
    (hk : '#' ∉ kp) :
    List.count '#' (ssh_entry cfg kp) = 1 := by
  unfold ssh_entry entryTail entry_marker host_alias
  simp only [List.count_append]
  rw [List.count_eq_zero.mpr hn, List.count_eq_zero.mpr hh,
    List.count_eq_zero.mpr hu, List.count_eq_zero.mpr hk,
    List.count_eq_zero.mpr (hash_not_mem_sanitize hn),
    List.count_eq_zero.mpr (hash_not_mem_natChars cfg.port)]
  decide

/-- C8: re-applying the SSH-config synthesis step for the same connection
name is a no-op (the marked block is already present), and — provided the
`#` character does not already occur in the configuration text or in the
interpolated descriptor fields — the resulting configuration text contains
the marker comment at exactly one position. -/
theorem C8_ssh_config_idempotent (t : List Char) (cfg : ConnectionConfig) (kp : List Char) :
    appendSshConfig (appendSshConfig t cfg kp) cfg kp = appendSshConfig t cfg kp
    ∧ ('#' ∉ t → '#' ∉ cfg.name → '#' ∉ cfg.host → '#' ∉ cfg.username → '#' ∉ kp →
        countSub (appendSshConfig (appendSshConfig t cfg kp) cfg kp)
          (entry_marker cfg.name) = 1) := by
  have hmem : containsSub (appendSshConfig t cfg kp) (entry_marker cfg.name) = true := by
    unfold appendSshConfig
    split_ifs with h
    · exact h
    · exact containsSub_append_right t (marker_in_entry cfg kp)
  have happ0 : ∀ u, containsSub u (entry_marker cfg.name) = true →
      appendSshConfig u cfg kp = u := by
    intro u hu
    unfold appendSshConfig
    rw [hu]
    rfl
  have happ : appendSshConfig (appendSshConfig t cfg kp) cfg kp = appendSshConfig t cfg kp :=
    happ0 _ hmem
  refine ⟨happ, ?_⟩
  intro ht hn hh hu hk
  have hmar : entry_marker cfg.name = '#' :: (" Mutagen GUI: ".data ++ cfg.name) := rfl
  have h1 : containsSub t (entry_marker cfg.name) = false := by
    rw [hmar]
    exact containsSub_head_notMem ht
  have hfirst : appendSshConfig t cfg kp = t ++ ssh_entry cfg kp := by
    unfold appendSshConfig
    rw [h1]
    rfl
  rw [happ, hfirst]
  have hle : countSub (t ++ ssh_entry cfg kp) (entry_marker cfg.name) ≤ 1 := by
    have hc1 : countSub (t ++ ssh_entry cfg kp) (entry_marker cfg.name)
        ≤ List.count '#' (t ++ ssh_entry cfg kp) := by
      rw [hmar]
      exact countSub_le_count _ _ _
    rw [List.count_append, List.count_eq_zero.mpr ht,
      count_hash_entry cfg kp hn hh hu hk] at hc1
    omega
  have hshape : t ++ ssh_entry cfg kp
      = (t ++ "\n".data) ++ (entry_marker cfg.name ++ entryTail cfg kp) := by
    unfold ssh_entry
    simp [List.append_assoc]
  have hge : 1 ≤ countSub (t ++ ssh_entry cfg kp) (entry_marker cfg.name) := by
    rw [hshape]
    exact countSub_ge_one _ _ _
  omega

/-- C8, witness: synthesis applied twice on an initially empty
configuration yields exactly one marked block, and the second application
changes nothing. -/
theorem C8_ssh_config_idempotent_witness :
    appendSshConfig (appendSshConfig [] keyCfg "/k/id".data) keyCfg "/k/id".data
      = appendSshConfig [] keyCfg "/k/id".data
    ∧ countSub (appendSshConfig (appendSshConfig [] keyCfg "/k/id".data) keyCfg "/k/id".data)
        (entry_marker keyCfg.name) = 1 :=
  ⟨(C8_ssh_config_idempotent [] keyCfg "/k/id".data).1,
   (C8_ssh_config_idempotent [] keyCfg "/k/id".data).2 (by decide) (by decide)
     (by decide) (by decide) (by decide)⟩

/- ------------------------------------------------------------------ -/
/- Claim C9.                                                           -/
/- ------------------------------------------------------------------ -/

/-- `daemon_status` reports `running` or `stopped`, never the capitalized
`Running` the route compares against. -/
theorem daemon_status_ne_Running (o : Except RunErr (List Char)) :
    (daemon_status o == "Running".data) = false := by
  cases o with
  | error e => rfl
  | ok out =>
    show ((if containsSub (lowerStr out) "running".data = true
        then "running".data else "stopped".data) == "Running".data) = false
    split_ifs <;> rfl

/-- The lower-cased timeout message always contains `timed out`. -/
theorem timeout_msg_contains (t : Nat) :
    containsSub (lowerStr (runErrMsg (.timedOut t))) "timed out".data = true := by
  unfold runErrMsg lowerStr
  rw [List.map_append, List.map_append]
  apply containsSub_append_left
  apply containsSub_append_left
  decide

/-- C9, counterexample: a non-timeout engine failure — a command failure
whose captured diagnostic text happens to contain `timed out` — is not
propagated by the listing route: it degrades to the empty list, because the
handler matches on the exception text rather than on the failure kind. -/
theorem C9_claim_cex :
    list_sessions_api (.ok "running".data) (.ok [])
        (.error (.commandFailed "connection timed out".data)) = .ok []
    ∧ list_sessions_api (.ok "running".data) (.ok [])
        (.error (.commandFailed "connection timed out".data))
      ≠ .error (.commandFailed "connection timed out".data) := by
  refine ⟨rfl, fun h => ?_⟩
  have h2 : (Except.ok [] : Except RunErr (List SessionRec))
      = .error (.commandFailed "connection timed out".data) := h
  exact Except.noConfusion h2

/-- C9 (amended): when the daemon-start step succeeds, a `Timeout` failure
of the listing invocation degrades to the empty list; a command failure
whose lower-cased text does not contain `timed out` is propagated; a
command failure whose lower-cased message does contain `timed out` also
degrades to the empty list; and the missing-binary failure (not a
`RuntimeError`) always propagates. -/
theorem C9_amended_leniency (statusO startO : Except RunErr (List Char))
    (s0 : List Char) (hs : startO = .ok s0) :
    (∀ t, list_sessions_api statusO startO (.error (.timedOut t)) = .ok [])
    ∧ (∀ m, containsSub (lowerStr ("Command failed: ".data ++ m)) "timed out".data = false →
        list_sessions_api statusO startO (.error (.commandFailed m))
          = .error (.commandFailed m))
    ∧ (∀ m, containsSub (lowerStr m) "timed out".data = true →
        list_sessions_api statusO startO (.error (.commandFailed m)) = .ok [])
    ∧ (list_sessions_api statusO startO (.error .notInstalled)
        = .error .notInstalled) := by
  subst hs
  have hds := daemon_status_ne_Running statusO
  have hstep : ∀ e, list_sessions_api statusO (.ok s0) (.error e) = rescueTimeout e := by
    intro e
    simp only [list_sessions_api]
    rw [hds]
    rfl
  refine ⟨?_, ?_, ?_, ?_⟩
  · intro t
    rw [hstep]
    simp only [rescueTimeout]
    rw [timeout_msg_contains t]
    rfl
  · intro m hm
    rw [hstep]
    simp only [rescueTimeout, runErrMsg]
    simp only [hm, Bool.false_eq_true, if_false]
  · intro m hm
    rw [hstep]
    have hwhole : containsSub (lowerStr (runErrMsg (.commandFailed m))) "timed out".data
        = true := by
      unfold runErrMsg lowerStr
      rw [List.map_append]
      exact containsSub_append_right _ hm
    simp only [rescueTimeout]
    rw [hwhole]
    rfl
  · rw [hstep]
    rfl

/-- C9 amended, witness: a clean timeout of the listing call yields the
empty result. -/
theorem C9_amended_leniency_witness :
    list_sessions_api (.ok "running".data) (.ok "started".data)
      (.error (.timedOut 60)) = .ok [] :=
  (C9_amended_leniency (.ok "running".data) (.ok "started".data)
    "started".data rfl).1 60

theorem trim_self_left {v : List Char} (h : trimChars v = v) : trimLeft v = v := by
  have hsuf : trimLeft v <:+ v := List.dropWhile_suffix _
  have h1 : (trimRight (trimLeft v)).length ≤ (trimLeft v).length :=
    trimRight_length_le _
  have h2 : (trimLeft v).length ≤ v.length := hsuf.sublist.length_le
  have h3 : v.length = (trimRight (trimLeft v)).length := by
    conv_lhs => rw [← h, trimChars]
  have hlen : (trimLeft v).length = v.length := by omega
  exact hsuf.eq_of_length hlen

/- ------------------------------------------------------------------ -/
/- Claim C7.                                                           -/
/- ------------------------------------------------------------------ -/

/-- C7: parsing a stanza whose `Connected:` line carries the (stripped)
value `v` — any value not doubling as a `URL:` line — records
`connected = some b` where `b` is exactly the substring test `"Yes" in v`;
and when the `Connected:` line is absent the `connected` key is never
written (it stays `none`, which reads as false — in particular it is never
`some true`). -/
theorem C7_connected (v : List Char) (hv : trimChars v = v)
    (hvu : containsSub v "URL:".data = false) :
    parseLinesList ["Name: demo".data, "Alpha:".data, "Connected: ".data ++ v]
      = [{ name := "demo".data,
           alpha := { url := none, connected := some (containsSub v "Yes".data) } }]
    ∧ parseLinesList ["Name: demo".data, "Alpha:".data]
      = [{ name := "demo".data }] := by
  constructor
  · by_cases hvne : v = []
    · subst hvne
      rfl
    · have htr : trimRight v = v := trim_self_right hv
      have htrne : trimRight v ≠ [] := by
        rw [htr]
        exact hvne
      have hline : trimChars ("Connected: ".data ++ v) = "Connected: ".data ++ v := by
        rw [show trimChars ("Connected: ".data ++ v)
              = trimRight ("Connected: ".data ++ v) from rfl,
          trimRight_append _ htrne, htr]
      show flushCurrent (processLine
          { sessions := [], current := some { name := "demo".data },
            cursor := some .alpha } ("Connected: ".data ++ v))
        = [{ name := "demo".data,
             alpha := { url := none, connected := some (containsSub v "Yes".data) } }]
      simp only [processLine]
      rw [hline]
      rw [show ("Name:".data.isPrefixOf ("Connected: ".data ++ v)) = false from rfl,
        show ("Identifier:".data.isPrefixOf ("Connected: ".data ++ v)) = false from rfl,
        show ("Status:".data.isPrefixOf ("Connected: ".data ++ v)) = false from rfl,
        show ("Alpha:".data.isPrefixOf ("Connected: ".data ++ v)) = false from rfl,
        show ("Beta:".data.isPrefixOf ("Connected: ".data ++ v)) = false from rfl,
        show containsSub ("Connected: ".data ++ v) "URL:".data
          = containsSub v "URL:".data from rfl,
        hvu,
        show containsSub ("Connected: ".data ++ v) "Connected:".data = true from rfl,
        show containsSub ("Connected: ".data ++ v) "Yes".data
          = containsSub v "Yes".data from rfl]
      rfl
  · rfl

/-- C7, witness: `Connected: Yes` yields `some true`, `Connected: No`
yields `some false`. -/
theorem C7_connected_witness :
    parseLinesList ["Name: demo".data, "Alpha:".data, "Connected: ".data ++ "Yes".data]
      = [{ name := "demo".data,
           alpha := { url := none, connected := some true } }]
    ∧ parseLinesList ["Name: demo".data, "Alpha:".data, "Connected: ".data ++ "No".data]
      = [{ name := "demo".data,
           alpha := { url := none, connected := some false } }] :=
  ⟨(C7_connected "Yes".data rfl rfl).1, (C7_connected "No".data rfl rfl).1⟩

/- ------------------------------------------------------------------ -/
/- Claim C10.                                                          -/
/- ------------------------------------------------------------------ -/

/-- C10: the endpoint cursor survives stanza boundaries.  A `Name:` line
never changes the cursor; concretely, in an input whose second stanza has a
`URL:` line before any marker of its own, that line is attached to the new
record under the endpoint selected in the first stanza (for either
endpoint and any stripped URL value `v`), not dropped. -/
theorem C10_cursor_carryover :
    (∀ (st : ParseState) (l : List Char),
        "Name:".data.isPrefixOf (trimChars l) = true →
        (processLine st l).cursor = st.cursor)
    ∧ (∀ (ep : EndpointId) (v : List Char), trimChars v = v →
        parseLinesList
            ["Name: a".data, markerLine ep, "Name: b".data, "URL: ".data ++ v]
          = [{ name := "a".data },
             updEp { name := "b".data } ep (fun e => setUrl e v)]) := by
  constructor
  · intro st l h
    simp only [processLine]
    rw [h]
    rfl
  · intro ep v hv
    have hval : trimChars (' ' :: v) = v := hv
    by_cases hvne : v = []
    · subst hvne
      cases ep <;> rfl
    · have htr : trimRight v = v := trim_self_right hv
      have htrne : trimRight v ≠ [] := by
        rw [htr]
        exact hvne
      have hline : trimChars ("URL: ".data ++ v) = "URL: ".data ++ v := by
        rw [show trimChars ("URL: ".data ++ v)
              = trimRight ("URL: ".data ++ v) from rfl,
          trimRight_append _ htrne, htr]
      cases ep
      · show flushCurrent (processLine
            { sessions := [{ name := "a".data }], current := some { name := "b".data },
              cursor := some .alpha } ("URL: ".data ++ v))
          = [{ name := "a".data },
             updEp { name := "b".data } .alpha (fun e => setUrl e v)]
        simp only [processLine]
        rw [hline]
        rw [show ("Name:".data.isPrefixOf ("URL: ".data ++ v)) = false from rfl,
          show ("Identifier:".data.isPrefixOf ("URL: ".data ++ v)) = false from rfl,
          show ("Status:".data.isPrefixOf ("URL: ".data ++ v)) = false from rfl,
          show ("Alpha:".data.isPrefixOf ("URL: ".data ++ v)) = false from rfl,
          show ("Beta:".data.isPrefixOf ("URL: ".data ++ v)) = false from rfl,
          show containsSub ("URL: ".data ++ v) "URL:".data = true from rfl,
          show trimChars (afterColon ("URL: ".data ++ v)) = trimChars (' ' :: v) from rfl,
          hval]
        rfl
      · show flushCurrent (processLine
            { sessions := [{ name := "a".data }], current := some { name := "b".data },
              cursor := some .beta } ("URL: ".data ++ v))
          = [{ name := "a".data },
             updEp { name := "b".data } .beta (fun e => setUrl e v)]
        simp only [processLine]
        rw [hline]
        rw [show ("Name:".data.isPrefixOf ("URL: ".data ++ v)) = false from rfl,
          show ("Identifier:".data.isPrefixOf ("URL: ".data ++ v)) = false from rfl,
          show ("Status:".data.isPrefixOf ("URL: ".data ++ v)) = false from rfl,
          show ("Alpha:".data.isPrefixOf ("URL: ".data ++ v)) = false from rfl,
          show ("Beta:".data.isPrefixOf ("URL: ".data ++ v)) = false from rfl,
          show containsSub ("URL: ".data ++ v) "URL:".data = true from rfl,
          show trimChars (afterColon ("URL: ".data ++ v)) = trimChars (' ' :: v) from rfl,
          hval]
        rfl

/-- C10, witness: with the cursor set to beta by the first stanza, a
`URL:` line opening the second stanza is attached to the new record's beta
endpoint. -/
theorem C10_cursor_carryover_witness :
    parseLinesList
        ["Name: a".data, markerLine .beta, "Name: b".data, "URL: ".data ++ "/x".data]
      = [{ name := "a".data },
         updEp { name := "b".data } .beta (fun e => setUrl e "/x".data)] :=
  C10_cursor_carryover.2 .beta "/x".data rfl

/-- C4 amended, witness: a name with a space and an underscore sanitizes to
hyphens, idempotently. -/
theorem C4_amended_sanitize_witness :
    sanitize_name (sanitize_name "a b_c".data) = sanitize_name "a b_c".data
    ∧ ' ' ∉ sanitize_name "a b_c".data
    ∧ '_' ∉ sanitize_name "a b_c".data :=
  C4_amended_sanitize "a b_c".data
